import Mathlib

/-!
Verification of the MCP client glue layer of `query_blogger_mcp_server`
(`demo/mcp_agent_tools.py`) and the domain allow-listing of its server
(`src/query_blogger_mcp_server/server.py`).

The embedding models JSON values as the inductive `Json` below (Python
floats are outside the model: every number is an integer).  Python
dictionaries are association lists with unique keys in the values the
code actually produces; lookup takes the first match.  Python exception
control flow is modelled with `Except String`, where the error string
plays the role of the exception message.  Exact CPython exception texts
(for `TypeError`, `AttributeError`, ...) are reproduced where they are
short and stable; none of the proved statements depends on their exact
wording.
-/

/-- JSON values (the float-free fragment): Python `None`, `bool`, `int`,
`str`, `list`, `dict` as produced/consumed by `json.loads`/`json.dumps`. -/
inductive Json where
  | null
  | bool (b : Bool)
  | num (n : Int)
  | str (s : String)
  | arr (elems : List Json)
  | obj (members : List (String × Json))

mutual

def beqV : Json → Json → Bool
  | .null, .null => true
  | .bool a, .bool b => a == b
  | .num a, .num b => a == b
  | .str a, .str b => a == b
  | .arr a, .arr b => beqL a b
  | .obj a, .obj b => beqM a b
  | _, _ => false

def beqL : List Json → List Json → Bool
  | [], [] => true
  | a :: as, b :: bs => beqV a b && beqL as bs
  | _, _ => false

def beqM : List (String × Json) → List (String × Json) → Bool
  | [], [] => true
  | (k, a) :: as, (l, b) :: bs => k == l && beqV a b && beqM as bs
  | _, _ => false

end

mutual

theorem beqV_iff : ∀ a b, beqV a b = true ↔ a = b
  | .null, b => by cases b <;> simp [beqV]
  | .bool x, b => by cases b <;> simp [beqV]
  | .num x, b => by cases b <;> simp [beqV]
  | .str x, b => by cases b <;> simp [beqV]
  | .arr xs, b => by
      cases b <;> simp [beqV]
      exact beqL_iff xs _
  | .obj ms, b => by
      cases b <;> simp [beqV]
      exact beqM_iff ms _

theorem beqL_iff : ∀ a b, beqL a b = true ↔ a = b
  | [], b => by cases b <;> simp [beqL]
  | x :: xs, b => by
      cases b with
      | nil => simp [beqL]
      | cons y ys =>
        simp only [beqL, Bool.and_eq_true, beqV_iff x y, beqL_iff xs ys, List.cons.injEq]

theorem beqM_iff : ∀ a b, beqM a b = true ↔ a = b
  | [], b => by cases b <;> simp [beqM]
  | (k, x) :: xs, b => by
      cases b with
      | nil => simp [beqM]
      | cons y ys =>
        cases y with
        | mk l v =>
          simp only [beqM, Bool.and_eq_true, beqV_iff x v, beqM_iff xs ys, List.cons.injEq,
            Prod.mk.injEq, beq_iff_eq]

end

instance : DecidableEq Json := fun a b => decidable_of_iff _ (beqV_iff a b)

/-- First-match lookup in an association list: Python `key in d` /
`d[key]` / `d.get(key)` on the dictionaries the code builds (which have
unique keys). -/
def jlookup (k : String) : List (String × Json) → Option Json
  | [] => none
  | (k2, v) :: rest => if k2 = k then some v else jlookup k rest

/-- The `'` character as a one-character string, kept out of string literals. -/
def quo : String := String.mk [Char.ofNat 39]

/-- The `{` character. -/
def lbrace : Char := Char.ofNat 123

/-- The `}` character. -/
def rbrace : Char := Char.ofNat 125

/-! ### Decimal numerals

`natChars n` is the list of decimal digits of `n`, most significant
first, exactly the digits `str(n)` / `json.dumps(n)` prints for a
non-negative Python int.  It is fuel-based so that it reduces in the
kernel. -/

def digitChar (n : Nat) : Char := Char.ofNat (48 + n)

def digitVal (c : Char) : Nat := c.toNat - 48

def natCharsAux : Nat → Nat → List Char
  | 0, _ => []
  | f + 1, n => if n < 10 then [digitChar n] else natCharsAux f (n / 10) ++ [digitChar (n % 10)]

def natChars (n : Nat) : List Char := natCharsAux (n + 1) n

/-- The digits of a (possibly negative) Python int, as printed. -/
def intChars (n : Int) : List Char :=
  if n < 0 then '-' :: natChars n.natAbs else natChars n.toNat

/-- Decimal value of a digit string (used by the number parser). -/
def digitsVal (l : List Char) : Nat := l.foldl (fun a c => a * 10 + digitVal c) 0

theorem natCharsAux_fuel : ∀ n f g, n < f → n < g → natCharsAux f n = natCharsAux g n := by
  intro n
  induction n using Nat.strong_induction_on with
  | _ n ih =>
    intro f g hf hg
    match f, g with
    | f + 1, g + 1 =>
      by_cases h10 : n < 10
      · simp [natCharsAux, h10]
      · have hdiv : n / 10 < n := Nat.div_lt_self (by omega) (by omega)
        simp only [natCharsAux, h10, if_false]
        rw [ih (n / 10) hdiv f g (by omega) (by omega)]

theorem natChars_unfold (n : Nat) :
    natChars n = if n < 10 then [digitChar n] else natChars (n / 10) ++ [digitChar (n % 10)] := by
  have hstep : natChars n =
      if n < 10 then [digitChar n] else natCharsAux n (n / 10) ++ [digitChar (n % 10)] := rfl
  by_cases h10 : n < 10
  · rw [hstep, if_pos h10, if_pos h10]
  · have hdiv : n / 10 < n := Nat.div_lt_self (by omega) (by omega)
    rw [hstep, if_neg h10, if_neg h10,
      natCharsAux_fuel (n / 10) n (n / 10 + 1) hdiv (by omega)]
    rfl

theorem digitChar_isDigit {n : Nat} (h : n < 10) : (digitChar n).isDigit = true := by
  interval_cases n <;> decide

theorem digitVal_digitChar {n : Nat} (h : n < 10) : digitVal (digitChar n) = n := by
  interval_cases n <;> decide

theorem natChars_ne_nil (n : Nat) : natChars n ≠ [] := by
  rw [natChars_unfold]
  by_cases h10 : n < 10 <;> simp [h10]

theorem natChars_all_digits (n : Nat) : ∀ c ∈ natChars n, c.isDigit = true := by
  induction n using Nat.strong_induction_on with
  | _ n ih =>
    rw [natChars_unfold]
    by_cases h10 : n < 10
    · simp [h10, digitChar_isDigit h10]
    · have hdiv : n / 10 < n := Nat.div_lt_self (by omega) (by omega)
      simp only [h10, if_false]
      intro c hc
      rcases List.mem_append.mp hc with h | h
      · exact ih (n / 10) hdiv c h
      · simp at h
        subst h
        exact digitChar_isDigit (Nat.mod_lt _ (by omega))

theorem digitChar_ne_zero {n : Nat} (h1 : 1 ≤ n) (h2 : n < 10) : digitChar n ≠ '0' := by
  interval_cases n <;> decide

theorem natChars_head_ne_zero : ∀ n, 1 ≤ n → ∀ c cs, natChars n = c :: cs → c ≠ '0' := by
  intro n
  induction n using Nat.strong_induction_on with
  | _ n ih =>
    intro hn c cs h
    rw [natChars_unfold] at h
    by_cases h10 : n < 10
    · rw [if_pos h10] at h
      injection h with h1 h2
      exact h1 ▸ digitChar_ne_zero hn h10
    · rw [if_neg h10] at h
      have hdiv : n / 10 < n := Nat.div_lt_self (by omega) (by omega)
      have hdiv1 : 1 ≤ n / 10 := (Nat.one_le_div_iff (by omega)).mpr (by omega)
      rcases hm : natChars (n / 10) with _ | ⟨c2, cs2⟩
      · exact absurd hm (natChars_ne_nil _)
      · rw [hm] at h
        simp only [List.cons_append] at h
        injection h with h1 h2
        exact h1 ▸ ih (n / 10) hdiv hdiv1 c2 cs2 hm

theorem digitsVal_aux (l : List Char) (a : Nat) :
    l.foldl (fun a c => a * 10 + digitVal c) a =
      a * 10 ^ l.length + l.foldl (fun a c => a * 10 + digitVal c) 0 := by
  induction l generalizing a with
  | nil => simp
  | cons c cs ih =>
    simp only [List.foldl_cons, List.length_cons]
    rw [ih (a * 10 + digitVal c), ih (0 * 10 + digitVal c)]
    ring

/-! ### Character and string helpers -/

/-- JSON whitespace (the characters `json.loads` skips between tokens). -/
def isWs (c : Char) : Bool := c = ' ' || c = '\t' || c = '\n' || c = '\r'

def skipWs (l : List Char) : List Char := l.dropWhile isWs

/-- ASCII whitespace stripped by Python `str.strip()` (space, tab, LF, CR,
vertical tab, form feed). -/
def isPySpace (c : Char) : Bool := isWs c || c = Char.ofNat 11 || c = Char.ofNat 12

/-- Python `s.strip()`. -/
def pyStrip (l : List Char) : List Char :=
  ((l.dropWhile isPySpace).reverse.dropWhile isPySpace).reverse

/-- Python `s.startswith(sep)`: `leadsWith sep l` is true when `sep` is an
initial segment of `l`. -/
def leadsWith : List Char → List Char → Bool
  | [], _ => true
  | _ :: _, [] => false
  | a :: as, b :: bs => a = b && leadsWith as bs

/-- Python `s.split(sep, 1)` when `sep` occurs: `some (before, after)` for the
first occurrence of `sep`, `none` when `sep` does not occur. -/
def splitOnce (sep : List Char) : List Char → Option (List Char × List Char)
  | [] => if leadsWith sep [] then some ([], []) else none
  | c :: cs =>
    if leadsWith sep (c :: cs) then some ([], (c :: cs).drop sep.length)
    else
      match splitOnce sep cs with
      | some (pre, post) => some (c :: pre, post)
      | none => none

/-- Index of the first occurrence of `sep` in `l` (Python `l.find(sep)` when
non-negative).  Used only by the specification side of claim C4. -/
def findSub (sep : List Char) : List Char → Option Nat
  | [] => if leadsWith sep [] then some 0 else none
  | c :: cs =>
    if leadsWith sep (c :: cs) then some 0
    else (findSub sep cs).map (· + 1)

/-! ### The JSON encoder (`json.dumps` on the float-free fragment)

Compact separators; `"` and `\` are escaped, other characters are emitted
verbatim (CPython additionally escapes control characters, which no claim
exercises). -/

def escapeChars : List Char → List Char
  | [] => []
  | c :: cs => if c = '"' || c = '\\' then '\\' :: c :: escapeChars cs else c :: escapeChars cs

mutual

def encV : Json → List Char
  | .null => "null".data
  | .bool true => "true".data
  | .bool false => "false".data
  | .num n => intChars n
  | .str s => '"' :: escapeChars s.data ++ ['"']
  | .arr [] => ['[', ']']
  | .arr (x :: xs) => '[' :: (encV x ++ encItems xs ++ [']'])
  | .obj [] => [lbrace, rbrace]
  | .obj (m :: ms) => lbrace :: (encKV m ++ encMembers ms ++ [rbrace])

def encKV : String × Json → List Char
  | (k, v) => '"' :: escapeChars k.data ++ '"' :: ':' :: encV v

def encItems : List Json → List Char
  | [] => []
  | x :: xs => ',' :: encV x ++ encItems xs

def encMembers : List (String × Json) → List Char
  | [] => []
  | m :: ms => ',' :: encKV m ++ encMembers ms

end

/-- `json.dumps` (compact separators, float-free fragment). -/
def jsonDumps (j : Json) : String := String.mk (encV j)

/-! Structural size used only to discharge the parser fuel. -/

mutual

def sizeV : Json → Nat
  | .null => 1
  | .bool _ => 1
  | .num _ => 1
  | .str _ => 1
  | .arr xs => 1 + sizeItems xs
  | .obj ms => 1 + sizeMembers ms

def sizeItems : List Json → Nat
  | [] => 0
  | x :: xs => 1 + sizeV x + sizeItems xs

def sizeMembers : List (String × Json) → Nat
  | [] => 0
  | (_, v) :: ms => 1 + sizeV v + sizeMembers ms

end

/-! ### The JSON reader (`json.loads` on the float-free fragment)

A fuel-indexed recursive-descent reader.  Error strings are short
apostrophe-free renderings of the corresponding `json.JSONDecodeError`
messages, without the line/column suffix CPython appends; no claim pins the
text interpolated for a decode error, only the raw fragment around it.
Divergences from CPython, none of them exercised by any claim: `\uXXXX`
escapes are rejected, floats are absent from the model, and duplicate object
keys are all kept in order (CPython keeps the last). -/

def unescape (c : Char) : Option Char :=
  if c = '"' then some '"'
  else if c = '\\' then some '\\'
  else if c = '/' then some '/'
  else if c = 'n' then some '\n'
  else if c = 't' then some '\t'
  else if c = 'r' then some '\r'
  else if c = 'b' then some (Char.ofNat 8)
  else if c = 'f' then some (Char.ofNat 12)
  else none

def parseStrBody : List Char → Except String (List Char × List Char)
  | [] => .error "Unterminated string"
  | c :: cs =>
    if c = '"' then .ok ([], cs)
    else if c = '\\' then
      match cs with
      | [] => .error "Unterminated string"
      | e :: cs2 =>
        match unescape e with
        | some u =>
          match parseStrBody cs2 with
          | .ok (s, r) => .ok (u :: s, r)
          | .error msg => .error msg
        | none => .error "Invalid escape"
    else
      match parseStrBody cs with
      | .ok (s, r) => .ok (c :: s, r)
      | .error msg => .error msg

def takeDigits : List Char → (List Char × List Char)
  | [] => ([], [])
  | c :: cs =>
    if c.isDigit then
      let (ds, r) := takeDigits cs
      (c :: ds, r)
    else ([], c :: cs)

/-- Digits of a number token; a leading `0` is not followed by further
digits (as in the JSON grammar). -/
def takeNumDigits (l : List Char) : List Char × List Char :=
  match l with
  | [] => ([], [])
  | c :: cs => if c = '0' then (['0'], cs) else takeDigits (c :: cs)

def parseNumFrom (l : List Char) : Except String (Json × List Char) :=
  match l with
  | [] => .error "Expecting value"
  | c :: rest =>
    if c = '-' then
      let p := takeNumDigits rest
      if p.1.isEmpty then .error "Expecting value"
      else .ok (.num (-(Int.ofNat (digitsVal p.1))), p.2)
    else
      let p := takeNumDigits (c :: rest)
      if p.1.isEmpty then .error "Expecting value"
      else .ok (.num (Int.ofNat (digitsVal p.1)), p.2)

/-- Reader mode: a JSON value, the tail of an array (after `[`, at least one
element), or the tail of an object (after the opening brace, at least one
member). -/
inductive PMode where
  | val
  | elems
  | members

inductive PRes where
  | v (j : Json)
  | es (l : List Json)
  | ms (l : List (String × Json))

def parseF : Nat → PMode → List Char → Except String (PRes × List Char)
  | 0, _, _ => .error "Nesting depth exceeded"
  | f + 1, .val, input =>
    match skipWs input with
    | [] => .error "Expecting value"
    | c :: rest =>
      if c = lbrace then
        match skipWs rest with
        | [] => .error "Expecting property name enclosed in double quotes"
        | d :: r2 =>
          if d = rbrace then .ok (.v (.obj []), r2)
          else
            match parseF f .members (d :: r2) with
            | .ok (.ms ms, r3) => .ok (.v (.obj ms), r3)
            | .ok (_, _) => .error "internal mode mismatch"
            | .error e => .error e
      else if c = '[' then
        match skipWs rest with
        | [] => .error "Expecting value"
        | d :: r2 =>
          if d = ']' then .ok (.v (.arr []), r2)
          else
            match parseF f .elems (d :: r2) with
            | .ok (.es es, r3) => .ok (.v (.arr es), r3)
            | .ok (_, _) => .error "internal mode mismatch"
            | .error e => .error e
      else if c = '"' then
        match parseStrBody rest with
        | .ok (s, r) => .ok (.v (.str (String.mk s)), r)
        | .error e => .error e
      else if leadsWith "null".data (c :: rest) then .ok (.v .null, rest.drop 3)
      else if leadsWith "true".data (c :: rest) then .ok (.v (.bool true), rest.drop 3)
      else if leadsWith "false".data (c :: rest) then .ok (.v (.bool false), rest.drop 4)
      else if c = '-' || c.isDigit then
        match parseNumFrom (c :: rest) with
        | .ok (j, r) => .ok (.v j, r)
        | .error e => .error e
      else .error "Expecting value"
  | f + 1, .elems, input =>
    match parseF f .val input with
    | .error e => .error e
    | .ok (.v j, r1) =>
      match skipWs r1 with
      | [] => .error "Expecting comma delimiter"
      | c :: r2 =>
        if c = ',' then
          match parseF f .elems r2 with
          | .ok (.es es, r3) => .ok (.es (j :: es), r3)
          | .ok (_, _) => .error "internal mode mismatch"
          | .error e => .error e
        else if c = ']' then .ok (.es [j], r2)
        else .error "Expecting comma delimiter"
    | .ok (_, _) => .error "internal mode mismatch"
  | f + 1, .members, input =>
    match skipWs input with
    | [] => .error "Expecting property name enclosed in double quotes"
    | c :: rest =>
      if c = '"' then
        match parseStrBody rest with
        | .error e => .error e
        | .ok (k, r1) =>
          match skipWs r1 with
          | [] => .error "Expecting colon delimiter"
          | d :: r2 =>
            if d = ':' then
              match parseF f .val r2 with
              | .error e => .error e
              | .ok (.v j, r3) =>
                match skipWs r3 with
                | [] => .error "Expecting comma delimiter"
                | e2 :: r4 =>
                  if e2 = ',' then
                    match parseF f .members r4 with
                    | .ok (.ms ms, r5) => .ok (.ms ((String.mk k, j) :: ms), r5)
                    | .ok (_, _) => .error "internal mode mismatch"
                    | .error e => .error e
                  else if e2 = rbrace then .ok (.ms [(String.mk k, j)], r4)
                  else .error "Expecting comma delimiter"
              | .ok (_, _) => .error "internal mode mismatch"
            else .error "Expecting colon delimiter"
      else .error "Expecting property name enclosed in double quotes"

/-- `json.loads` (float-free fragment; see the divergence notes above). -/
def jsonLoads (s : String) : Except String Json :=
  match parseF (s.data.length + 1) .val s.data with
  | .error e => .error e
  | .ok (.v j, rest) =>
    match skipWs rest with
    | [] => .ok j
    | _ :: _ => .error "Extra data"
  | .ok (_, _) => .error "internal mode mismatch"

theorem digitsVal_natChars (n : Nat) : digitsVal (natChars n) = n := by
  induction n using Nat.strong_induction_on with
  | _ n ih =>
    rw [natChars_unfold]
    by_cases h10 : n < 10
    · simp [h10, digitsVal, digitVal_digitChar h10]
    · have hdiv : n / 10 < n := Nat.div_lt_self (by omega) (by omega)
      simp only [h10, if_false]
      have hmod : n % 10 < 10 := Nat.mod_lt _ (by omega)
      unfold digitsVal
      rw [List.foldl_append]
      simp only [List.foldl_cons, List.foldl_nil]
      have := ih (n / 10) hdiv
      unfold digitsVal at this
      rw [this, digitVal_digitChar hmod]
      omega

/-! ### Round-trip of the encoder through the reader -/

theorem mk_data (s : String) : String.mk s.data = s := rfl

/-- The next character of the remaining input is not a digit (so that a
number token before it ends where intended). -/
def NoDigitHead (l : List Char) : Prop := ∀ c, l.head? = some c → c.isDigit = false

theorem noDigitHead_nil : NoDigitHead [] := fun c h => by simp at h

theorem noDigitHead_cons {c : Char} {l : List Char} (h : c.isDigit = false) :
    NoDigitHead (c :: l) := by
  intro d hd
  simp only [List.head?_cons, Option.some.injEq] at hd
  exact hd ▸ h

theorem skipWs_cons {c : Char} {l : List Char} (h : isWs c = false) :
    skipWs (c :: l) = c :: l := by
  simp [skipWs, List.dropWhile_cons, h]

theorem digit_not_ws {c : Char} (h : c.isDigit = true) : isWs c = false := by
  cases hw : isWs c
  · rfl
  · exfalso
    have h4 : c = ' ' ∨ c = '\t' ∨ c = '\n' ∨ c = '\r' := by
      simpa [isWs, or_assoc] using hw
    rcases h4 with h1 | h1 | h1 | h1 <;> (subst h1; exact absurd h (by decide))

theorem digit_ne {c d : Char} (h : c.isDigit = true) (hd : d.isDigit = false) : c ≠ d := by
  intro he
  subst he
  rw [h] at hd
  exact absurd hd (by decide)

theorem parseStrBody_enc : ∀ cs rest, parseStrBody (escapeChars cs ++ '"' :: rest) = .ok (cs, rest)
  | [], rest => by
    simp only [escapeChars, List.nil_append]
    rw [parseStrBody.eq_def]
    simp
  | c :: cs, rest => by
    have ih := parseStrBody_enc cs rest
    by_cases hc : c = '"' ∨ c = '\\'
    · have he : escapeChars (c :: cs) = '\\' :: c :: escapeChars cs := by
        rcases hc with h | h <;> (subst h; rfl)
      have hu : unescape c = some c := by
        rcases hc with h | h <;> (subst h; rfl)
      rw [he]
      simp only [List.cons_append]
      rw [parseStrBody.eq_def]
      simp [hu, ih]
    · push_neg at hc
      have he : escapeChars (c :: cs) = c :: escapeChars cs := by
        simp [escapeChars, hc.1, hc.2]
      rw [he]
      simp only [List.cons_append]
      rw [parseStrBody.eq_def]
      simp [hc.1, hc.2, ih]

theorem takeDigits_append : ∀ ds rest, (∀ c ∈ ds, c.isDigit = true) → NoDigitHead rest →
    takeDigits (ds ++ rest) = (ds, rest)
  | [], rest => by
    intro _ hnd
    cases rest with
    | nil => rfl
    | cons c cs =>
      have hc : c.isDigit = false := hnd c (by simp)
      simp [takeDigits, hc]
  | d :: ds, rest => by
    intro hall hnd
    have hd : d.isDigit = true := hall d (by simp)
    simp [takeDigits, hd, takeDigits_append ds rest (fun c hc => hall c (by simp [hc])) hnd]

theorem takeNumDigits_natChars (n : Nat) (rest : List Char) (hnd : NoDigitHead rest) :
    takeNumDigits (natChars n ++ rest) = (natChars n, rest) := by
  rcases Nat.eq_zero_or_pos n with h0 | hpos
  · subst h0
    rfl
  · obtain ⟨c, cs, hm⟩ := List.exists_cons_of_ne_nil (natChars_ne_nil n)
    have hc0 : c ≠ '0' := natChars_head_ne_zero n hpos c cs hm
    have hall : ∀ d ∈ natChars n, d.isDigit = true := natChars_all_digits n
    rw [hm, List.cons_append]
    simp only [takeNumDigits, if_neg hc0]
    rw [← List.cons_append, ← hm]
    exact takeDigits_append (natChars n) rest hall hnd

theorem parseNumFrom_nonneg (n : Nat) (rest : List Char) (hnd : NoDigitHead rest) :
    parseNumFrom (natChars n ++ rest) = .ok (.num (Int.ofNat n), rest) := by
  obtain ⟨c, cs, hm⟩ := List.exists_cons_of_ne_nil (natChars_ne_nil n)
  have hcd : c.isDigit = true := natChars_all_digits n c (by rw [hm]; simp)
  have hcm : c ≠ '-' := digit_ne hcd (by decide)
  have htk : takeNumDigits (natChars n ++ rest) = (natChars n, rest) :=
    takeNumDigits_natChars n rest hnd
  have hne : (natChars n).isEmpty = false := by rw [hm]; rfl
  rw [hm, List.cons_append]
  simp only [parseNumFrom, if_neg hcm]
  rw [← List.cons_append, ← hm, htk]
  simp [hne, ← hm, digitsVal_natChars]

theorem parseNumFrom_negSucc (m : Nat) (rest : List Char) (hnd : NoDigitHead rest) :
    parseNumFrom ('-' :: (natChars (m + 1) ++ rest)) = .ok (.num (Int.negSucc m), rest) := by
  have htk : takeNumDigits (natChars (m + 1) ++ rest) = (natChars (m + 1), rest) :=
    takeNumDigits_natChars (m + 1) rest hnd
  obtain ⟨c, cs, hm⟩ := List.exists_cons_of_ne_nil (natChars_ne_nil (m + 1))
  have hne : (natChars (m + 1)).isEmpty = false := by rw [hm]; rfl
  have hval : -(Int.ofNat (m + 1)) = Int.negSucc m := by
    rw [Int.negSucc_eq]
    simp
  simp only [parseNumFrom, htk, digitsVal_natChars, hval]
  simp [hne]

theorem encV_head : ∀ x : Json, ∃ c cs, encV x = c :: cs ∧ isWs c = false ∧ c ≠ ']' := by
  intro x
  match x with
  | .null => exact ⟨'n', _, rfl, by decide, by decide⟩
  | .bool true => exact ⟨'t', _, rfl, by decide, by decide⟩
  | .bool false => exact ⟨'f', _, rfl, by decide, by decide⟩
  | .str s => exact ⟨'"', _, rfl, by decide, by decide⟩
  | .arr [] => exact ⟨'[', _, rfl, by decide, by decide⟩
  | .arr (y :: ys) => exact ⟨'[', _, rfl, by decide, by decide⟩
  | .obj [] => exact ⟨lbrace, _, rfl, by decide, by decide⟩
  | .obj (m :: ms) => exact ⟨lbrace, _, rfl, by decide, by decide⟩
  | .num n =>
    cases n with
    | ofNat m =>
      obtain ⟨c, cs, hm⟩ := List.exists_cons_of_ne_nil (natChars_ne_nil m)
      have hcd : c.isDigit = true := natChars_all_digits m c (by rw [hm]; simp)
      refine ⟨c, cs, ?_, digit_not_ws hcd, digit_ne hcd (by decide)⟩
      have : encV (.num (Int.ofNat m)) = natChars m := by
        simp [encV, intChars]
      rw [this, hm]
    | negSucc m =>
      refine ⟨'-', natChars (m + 1), ?_, by decide, by decide⟩
      have : encV (.num (Int.negSucc m)) = '-' :: natChars (Int.negSucc m).natAbs := by
        simp [encV, intChars]
      rw [this]
      rfl

theorem noDigitHead_encItems (xs : List Json) (rest : List Char) :
    NoDigitHead (encItems xs ++ ']' :: rest) := by
  cases xs with
  | nil => exact noDigitHead_cons (by decide)
  | cons y ys =>
    simp only [encItems, List.cons_append, List.append_assoc]
    exact noDigitHead_cons (by decide)

theorem noDigitHead_encMembers (ms : List (String × Json)) (rest : List Char) :
    NoDigitHead (encMembers ms ++ rbrace :: rest) := by
  cases ms with
  | nil => exact noDigitHead_cons (by decide)
  | cons m ms =>
    simp only [encMembers, List.cons_append, List.append_assoc]
    exact noDigitHead_cons (by decide)

theorem parseF_val_digit_head (f : Nat) (c : Char) (l : List Char) (hcd : c.isDigit = true) :
    parseF (f + 1) .val (c :: l) =
      match parseNumFrom (c :: l) with
      | .ok (j, r) => .ok (.v j, r)
      | .error e => .error e := by
  have w : isWs c = false := digit_not_ws hcd
  have n1 : c ≠ lbrace := digit_ne hcd (by decide)
  have n2 : c ≠ '[' := digit_ne hcd (by decide)
  have n3 : c ≠ '"' := digit_ne hcd (by decide)
  have n4 : ('n' : Char) ≠ c := (digit_ne hcd (by decide)).symm
  have n5 : ('t' : Char) ≠ c := (digit_ne hcd (by decide)).symm
  have n6 : ('f' : Char) ≠ c := (digit_ne hcd (by decide)).symm
  simp [parseF, skipWs_cons w, n1, n2, n3, leadsWith,
    show "null".data = 'n' :: 'u' :: 'l' :: 'l' :: [] from rfl,
    show "true".data = 't' :: 'r' :: 'u' :: 'e' :: [] from rfl,
    show "false".data = 'f' :: 'a' :: 'l' :: 's' :: 'e' :: [] from rfl,
    n4, n5, n6, hcd]

mutual

theorem parseV_enc : ∀ (x : Json) (f : Nat) (rest : List Char), sizeV x ≤ f → NoDigitHead rest →
    parseF f .val (encV x ++ rest) = .ok (.v x, rest)
  | .null, f, rest => by
    intro hsz hnd
    have h1 : 1 ≤ f := by simpa [sizeV] using hsz
    cases f with
    | zero => omega
    | succ f => rfl
  | .bool true, f, rest => by
    intro hsz hnd
    have h1 : 1 ≤ f := by simpa [sizeV] using hsz
    cases f with
    | zero => omega
    | succ f => rfl
  | .bool false, f, rest => by
    intro hsz hnd
    have h1 : 1 ≤ f := by simpa [sizeV] using hsz
    cases f with
    | zero => omega
    | succ f => rfl
  | .num n, f, rest => by
    intro hsz hnd
    have h1 : 1 ≤ f := by simpa [sizeV] using hsz
    cases f with
    | zero => omega
    | succ f =>
      cases n with
      | ofNat m =>
        have henc : encV (.num (Int.ofNat m)) = natChars m := by simp [encV, intChars]
        obtain ⟨c, cs, hm⟩ := List.exists_cons_of_ne_nil (natChars_ne_nil m)
        have hcd : c.isDigit = true := natChars_all_digits m c (by rw [hm]; simp)
        rw [henc, hm, List.cons_append, parseF_val_digit_head f c _ hcd,
          ← List.cons_append, ← hm, parseNumFrom_nonneg m rest hnd]
      | negSucc m =>
        have henc : encV (.num (Int.negSucc m)) = '-' :: natChars (m + 1) := by
          simp [encV, intChars]
        rw [henc, List.cons_append]
        have hd : parseF (f + 1) .val ('-' :: (natChars (m + 1) ++ rest)) =
            match parseNumFrom ('-' :: (natChars (m + 1) ++ rest)) with
            | .ok (j, r) => .ok (.v j, r)
            | .error e => .error e := rfl
        rw [hd, parseNumFrom_negSucc m rest hnd]
  | .str s, f, rest => by
    intro hsz hnd
    have h1 : 1 ≤ f := by simpa [sizeV] using hsz
    cases f with
    | zero => omega
    | succ f =>
      have h := parseStrBody_enc s.data rest
      simp [encV, parseF, List.cons_append, List.append_assoc, h, mk_data,
        skipWs_cons (show isWs '"' = false by decide),
        (show ('"' : Char) ≠ lbrace by decide)]
  | .arr [], f, rest => by
    intro hsz hnd
    have h1 : 1 ≤ f := by simpa [sizeV] using hsz
    cases f with
    | zero => omega
    | succ f => rfl
  | .arr (y :: ys), f, rest => by
    intro hsz hnd
    have h1 : 1 + sizeItems (y :: ys) ≤ f := by simpa [sizeV] using hsz
    cases f with
    | zero => omega
    | succ f =>
      obtain ⟨c, cs, hm, hw, hne⟩ := encV_head y
      have hIt := parseItems_enc y ys f rest (by omega)
      rw [hm] at hIt
      simp only [List.cons_append, List.append_assoc] at hIt
      have hL : encV (.arr (y :: ys)) ++ rest =
          '[' :: (c :: (cs ++ (encItems ys ++ ']' :: rest))) := by
        simp [encV, hm, List.append_assoc]
      rw [hL]
      simp [parseF, skipWs_cons hw, hne, hIt,
        skipWs_cons (show isWs '[' = false by decide),
        (show ('[' : Char) ≠ lbrace by decide)]
  | .obj [], f, rest => by
    intro hsz hnd
    have h1 : 1 ≤ f := by simpa [sizeV] using hsz
    cases f with
    | zero => omega
    | succ f => rfl
  | .obj (m :: ms), f, rest => by
    intro hsz hnd
    have h1 : 1 + sizeMembers (m :: ms) ≤ f := by simpa [sizeV] using hsz
    cases f with
    | zero => omega
    | succ f =>
      obtain ⟨k, v⟩ := m
      have hMs := parseMembers_enc (k, v) ms f rest (by omega)
      simp only [encKV, List.cons_append, List.append_assoc] at hMs
      have hL : encV (.obj ((k, v) :: ms)) ++ rest =
          lbrace :: ('"' :: (escapeChars k.data ++
            (('"' :: ':' :: encV v) ++ (encMembers ms ++ rbrace :: rest)))) := by
        simp [encV, encKV, List.append_assoc]
      rw [hL]
      simp [parseF, hMs, List.append_assoc, List.cons_append,
        skipWs_cons (show isWs lbrace = false by decide),
        skipWs_cons (show isWs '"' = false by decide),
        (show ('"' : Char) ≠ rbrace by decide)]
termination_by x f rest => f

theorem parseItems_enc : ∀ (x : Json) (xs : List Json) (f : Nat) (rest : List Char),
    sizeItems (x :: xs) ≤ f →
    parseF f .elems (encV x ++ encItems xs ++ ']' :: rest) = .ok (.es (x :: xs), rest)
  | x, xs, f, rest => by
    intro hsz
    have h1 : 1 + sizeV x + sizeItems xs ≤ f := by simpa [sizeItems] using hsz
    cases f with
    | zero => omega
    | succ f =>
      have hV := parseV_enc x f (encItems xs ++ ']' :: rest) (by omega)
        (noDigitHead_encItems xs rest)
      cases xs with
      | nil =>
        simp only [encItems, List.nil_append, List.append_nil] at hV ⊢
        simp [parseF, List.append_assoc, hV,
          skipWs_cons (show isWs ']' = false by decide)]
      | cons y ys =>
        have hIt := parseItems_enc y ys f rest (by simp [sizeItems] at h1 ⊢; omega)
        simp only [encItems, List.cons_append, List.append_assoc] at hV hIt ⊢
        simp [parseF, List.append_assoc, hV,
          skipWs_cons (show isWs ',' = false by decide), hIt]
termination_by x xs f rest => f

theorem parseMembers_enc : ∀ (m : String × Json) (ms : List (String × Json)) (f : Nat)
    (rest : List Char), sizeMembers (m :: ms) ≤ f →
    parseF f .members (encKV m ++ encMembers ms ++ rbrace :: rest) = .ok (.ms (m :: ms), rest)
  | (k, v), ms, f, rest => by
    intro hsz
    have h1 : 1 + sizeV v + sizeMembers ms ≤ f := by simpa [sizeMembers] using hsz
    cases f with
    | zero => omega
    | succ f =>
      have hV := parseV_enc v f (encMembers ms ++ rbrace :: rest) (by omega)
        (noDigitHead_encMembers ms rest)
      have hK := parseStrBody_enc k.data (':' :: (encV v ++ (encMembers ms ++ rbrace :: rest)))
      cases ms with
      | nil =>
        simp only [encMembers, List.nil_append, List.append_nil] at hV hK ⊢
        simp [parseF, encKV, List.cons_append, List.append_assoc, hK, hV, mk_data,
          skipWs_cons (show isWs '"' = false by decide),
          skipWs_cons (show isWs ':' = false by decide),
          skipWs_cons (show isWs rbrace = false by decide),
          (show (rbrace : Char) ≠ ',' by decide)]
      | cons m2 ms2 =>
        have hMs := parseMembers_enc m2 ms2 f rest (by simp [sizeMembers] at h1 ⊢; omega)
        simp only [encMembers, List.cons_append, List.append_assoc] at hV hMs hK ⊢
        simp [parseF, encKV, List.cons_append, List.append_assoc, hK, hV, mk_data, hMs,
          skipWs_cons (show isWs '"' = false by decide),
          skipWs_cons (show isWs ':' = false by decide),
          skipWs_cons (show isWs ',' = false by decide)]
termination_by m ms f rest => f

end

mutual

theorem sizeV_le_encV : ∀ x : Json, sizeV x ≤ (encV x).length
  | .null => by simp [sizeV, encV]
  | .bool true => by simp [sizeV, encV]
  | .bool false => by simp [sizeV, encV]
  | .num n => by
    have := natChars_ne_nil n.toNat
    have := natChars_ne_nil n.natAbs
    rcases h : intChars n with _ | ⟨c, cs⟩
    · exfalso
      unfold intChars at h
      by_cases hneg : n < 0 <;> simp [hneg] at h
      exact natChars_ne_nil _ h
    · simp [sizeV, encV, h]
  | .str s => by simp [sizeV, encV]
  | .arr [] => by simp [sizeV, sizeItems, encV]
  | .arr (y :: ys) => by
    have h1 := sizeV_le_encV y
    have h2 := sizeItems_le_encItems ys
    simp [sizeV, sizeItems, encV]
    omega
  | .obj [] => by simp [sizeV, sizeMembers, encV]
  | .obj (m :: ms) => by
    obtain ⟨k, v⟩ := m
    have h1 := sizeV_le_encV v
    have h2 := sizeMembers_le_encMembers ms
    simp [sizeV, sizeMembers, encV, encKV]
    omega

theorem sizeItems_le_encItems : ∀ xs : List Json, sizeItems xs ≤ (encItems xs).length
  | [] => by simp [sizeItems, encItems]
  | y :: ys => by
    have h1 := sizeV_le_encV y
    have h2 := sizeItems_le_encItems ys
    simp [sizeItems, encItems]
    omega

theorem sizeMembers_le_encMembers : ∀ ms : List (String × Json),
    sizeMembers ms ≤ (encMembers ms).length
  | [] => by simp [sizeMembers, encMembers]
  | (k, v) :: ms => by
    have h1 := sizeV_le_encV v
    have h2 := sizeMembers_le_encMembers ms
    simp [sizeMembers, encMembers, encKV]
    omega

end

/-- The reader inverts the encoder: `json.loads(json.dumps(x)) == x` for
every value of the modelled fragment. -/
theorem jsonLoads_dumps (x : Json) : jsonLoads (jsonDumps x) = .ok x := by
  have hfuel : sizeV x ≤ (encV x).length + 1 := le_trans (sizeV_le_encV x) (by omega)
  have h := parseV_enc x ((encV x).length + 1) [] hfuel noDigitHead_nil
  rw [List.append_nil] at h
  unfold jsonLoads jsonDumps
  simp [mk_data, h, show skipWs [] = [] from rfl]

/-! ### Python value rendering and dictionary/sequence primitives

`pyStr`/`pyRepr` model CPython `str()`/`repr()` of JSON-shaped values as
interpolated by f-strings.  `repr` of a string is simplified to single
quotes with no escaping (CPython escapes and may switch quote characters;
no claim exercises that).  `pyIn`/`pyIndex`/`pyGet` model `k in x`,
`x[k]` and `x.get(k, d)` including the `TypeError`/`AttributeError` they
raise on non-dictionaries; the error strings follow CPython 3.11. -/

def pyTypeName : Json → String
  | .null => "NoneType"
  | .bool _ => "bool"
  | .num _ => "int"
  | .str _ => "str"
  | .arr _ => "list"
  | .obj _ => "dict"

mutual

def pyRepr : Json → String
  | .null => "None"
  | .bool true => "True"
  | .bool false => "False"
  | .num n => String.mk (intChars n)
  | .str s => quo ++ s ++ quo
  | .arr [] => "[]"
  | .arr (x :: xs) => "[" ++ pyRepr x ++ pyReprItems xs ++ "]"
  | .obj [] => "\x7b\x7d"
  | .obj (m :: ms) => "\x7b" ++ pyReprKV m ++ pyReprMembers ms ++ "\x7d"

def pyReprKV : String × Json → String
  | (k, v) => quo ++ k ++ quo ++ ": " ++ pyRepr v

def pyReprItems : List Json → String
  | [] => ""
  | x :: xs => ", " ++ pyRepr x ++ pyReprItems xs

def pyReprMembers : List (String × Json) → String
  | [] => ""
  | m :: ms => ", " ++ pyReprKV m ++ pyReprMembers ms

end

def pyStr : Json → String
  | .str s => s
  | j => pyRepr j

/-- Python substring containment (`needle in hay` for strings). -/
def substrOf (needle hay : String) : Bool := (splitOnce needle.data hay.data).isSome

/-- Python `k in j`.  An `Except.error` is a raised `TypeError`. -/
def pyIn (k : String) (j : Json) : Except String Bool :=
  match j with
  | .obj kvs => .ok (jlookup k kvs).isSome
  | .arr xs => .ok (xs.contains (.str k))
  | .str s => .ok (substrOf k s)
  | j2 => .error ("argument of type " ++ quo ++ pyTypeName j2 ++ quo ++ " is not iterable")

/-- Python `j[k]` for a string key.  An `Except.error` is a raised
`KeyError`/`TypeError`. -/
def pyIndex (j : Json) (k : String) : Except String Json :=
  match j with
  | .obj kvs =>
    match jlookup k kvs with
    | some v => .ok v
    | none => .error (quo ++ k ++ quo)
  | .arr _ => .error "list indices must be integers or slices, not str"
  | .str _ => .error ("string indices must be integers, not " ++ quo ++ "str" ++ quo)
  | j2 => .error (quo ++ pyTypeName j2 ++ quo ++ " object is not subscriptable")

/-- Python `j.get(k, dflt)`.  An `Except.error` is a raised
`AttributeError` (`.get` on a non-dictionary). -/
def pyGet (j : Json) (k : String) (dflt : Json) : Except String Json :=
  match j with
  | .obj kvs => .ok ((jlookup k kvs).getD dflt)
  | j2 => .error (quo ++ pyTypeName j2 ++ quo ++ " object has no attribute " ++ quo ++ "get" ++ quo)

/-- Python truthiness of a JSON-shaped value. -/
def jTruthy : Json → Bool
  | .null => false
  | .bool b => b
  | .num n => decide (n ≠ 0)
  | .str s => !s.isEmpty
  | .arr l => !l.isEmpty
  | .obj l => !l.isEmpty

/-! ### The MCP client (`demo/mcp_agent_tools.py`) -/

/-- The dictionary `{"error": msg}` the client returns on failures. -/
def errObj (msg : String) : Json := .obj [("error", .str msg)]

/-- The exact protocol-violation message of `call_mcp_tool` (line 196). -/
def missingKeyMsg : String :=
  "Unexpected JSON-RPC response format from MCP server (missing " ++ quo ++ "result" ++ quo ++
    " or " ++ quo ++ "error" ++ quo ++ " key)."

/-- Result of the body-decoding logic shared by `_parse_response`
(lines 53-75) and the inline copy in `call_mcp_tool` (lines 153-167):
either a parsed JSON document, a returned `{"error": ...}` dictionary
(`errDict`), or an uncaught exception (`raised`, the `IndexError` from
`split("data:", 1)[1]` when the SSE marker is present but no `data:`
occurs). -/
inductive ParseOutcome where
  | parsed (j : Json)
  | errDict (msg : String)
  | raised (msg : String)
deriving DecidableEq

def sseMarker : String := "event: message"

def parseRespBody (body : String) : ParseOutcome :=
  if leadsWith sseMarker.data body.data then
    match splitOnce "data:".data body.data with
    | none => .raised "list index out of range"
    | some (_, after) =>
      let dataLine := String.mk (pyStrip after)
      match jsonLoads dataLine with
      | .ok j => .parsed j
      | .error e =>
        .errDict ("JSON decoding error of SSE data payload: " ++ e ++ ". Raw data: " ++
          quo ++ dataLine ++ quo)
  else
    match jsonLoads body with
    | .ok j => .parsed j
    | .error e =>
      .errDict ("JSON decoding error of direct response: " ++ e ++ ". Raw response: " ++
        quo ++ body ++ quo)

/-- `_parse_response` as seen by its caller `_fetch_tools`: the returned
dictionary, or a raised exception. -/
def parse_response (body : String) : Except String Json :=
  match parseRespBody body with
  | .parsed j => .ok j
  | .errDict m => .ok (errObj m)
  | .raised m => .error m

/-- The result/error unwrapping of `call_mcp_tool` on the parsed envelope
(lines 171-196).  `.ok` is the dictionary the function returns (the
unwrapped payload or an `{"error": ...}` dictionary); `.error` is an
uncaught Python exception, captured by the surrounding
`except Exception` clause. -/
def unwrapEnvelope (env : Json) : Except String Json := do
  let hasRes ← pyIn "result" env
  if hasRes then
    let result ← pyIndex env "result"
    match result with
    | .obj rkvs =>
      match jlookup "content" rkvs with
      | some (.arr (c0 :: _)) =>
        match c0 with
        | .obj ckvs =>
          if jlookup "type" ckvs = some (.str "text") then
            match jlookup "text" ckvs with
            | some nested =>
              match nested with
              | .str s =>
                match jsonLoads s with
                | .ok v => pure v
                | .error e =>
                  pure (errObj ("JSON decoding error of nested content: " ++ e ++
                    ". Raw nested text: " ++ quo ++ s ++ quo))
              | j2 =>
                throw ("the JSON object must be str, bytes or bytearray, not " ++ pyTypeName j2)
            | none => pure result
          else pure result
        | _ => pure result
      | _ => pure result
    | _ => pure result
  else
    let hasErr ← pyIn "error" env
    if hasErr then
      let errVal ← pyIndex env "error"
      let msg ← pyGet errVal "message" (.str "Unknown error")
      pure (errObj ("MCP server JSON-RPC error: " ++ pyStr msg))
    else
      pure (errObj missingKeyMsg)

/-- Outcome of `await self.client.post(...)`: a received HTTP response, a
raised `httpx.RequestError` (DNS/refused/timeout), or any other raised
exception. -/
inductive HttpOutcome where
  | success (status : Nat) (body : String)
  | requestError (msg : String)
  | otherError (msg : String)
deriving DecidableEq

/-- `httpx.Response.raise_for_status()` raises unless the status is 2xx. -/
def is2xx (status : Nat) : Bool := 200 ≤ status && status ≤ 299

def natStr (n : Nat) : String := String.mk (natChars n)

/-- The three exception classes distinguished by the `except` clauses of
`call_mcp_tool` (lines 201-209). -/
inductive PyExc where
  | httpStatus (status : Nat) (body : String)
  | request (msg : String)
  | other (msg : String)

/-- The `try` block of `call_mcp_tool` (lines 144-199). -/
def callToolTry (o : HttpOutcome) : Except PyExc Json :=
  match o with
  | .requestError m => .error (.request m)
  | .otherError m => .error (.other m)
  | .success st body =>
    if is2xx st then
      match parseRespBody body with
      | .errDict m => .ok (errObj m)
      | .raised m => .error (.other m)
      | .parsed env =>
        match unwrapEnvelope env with
        | .ok j => .ok j
        | .error m => .error (.other m)
    else .error (.httpStatus st body)

/-- `call_mcp_tool` (lines 121-209): the tool name, arguments and request
id only shape the outgoing request, so the returned dictionary is a
function of the transport outcome alone. -/
def call_mcp_tool (o : HttpOutcome) : Json :=
  match callToolTry o with
  | .ok j => j
  | .error (.httpStatus st body) =>
    errObj ("Tool call failed: HTTP " ++ natStr st ++ " - " ++ body)
  | .error (.request m) => errObj ("Tool call failed: Network error - " ++ m)
  | .error (.other m) => errObj ("Tool call failed: Unexpected error - " ++ m)

structure ToolDefinition where
  name : String
  description : String
  parameters : List (String × Json)
  method : String
deriving DecidableEq

/-- One entry of the `tools/list` comprehension (lines 96-104):
`ToolDefinition(name=method["name"], description=method.get("description", ""),
parameters=method.get("parameters", {}), method=method["name"])`.
`none` models an exception (a `KeyError`/`TypeError` on `method["name"]`
or a pydantic `ValidationError` on a wrongly-typed field), which aborts
`_fetch_tools` into its `except` clause. -/
def toolOfMethod (m : Json) : Option ToolDefinition :=
  match m with
  | .obj kvs =>
    match jlookup "name" kvs with
    | none => none
    | some nameV =>
      match nameV, (jlookup "description" kvs).getD (.str ""),
          (jlookup "parameters" kvs).getD (.obj []) with
      | .str n, .str d, .obj p => some ⟨n, d, p, n⟩
      | _, _, _ => none
  | _ => none

/-- `_fetch_tools` (lines 77-107) as a function of the transport outcome
of its discovery POST.  Every exception path of the `try` block ends in
`return []`. -/
def fetch_tools (o : HttpOutcome) : List ToolDefinition :=
  match o with
  | .requestError _ => []
  | .otherError _ => []
  | .success st body =>
    if is2xx st then
      match parse_response body with
      | .error _ => []
      | .ok parsed =>
        match parsed with
        | .obj kvs =>
          match (jlookup "result" kvs).getD (.arr []) with
          | .obj rkvs =>
            match (jlookup "tools" rkvs).getD (.arr []) with
            | .arr ms => (ms.mapM toolOfMethod).getD []
            | _ => []
          | _ => []
        | _ => []
    else []

/-- The mutable cache of `MCPAgentTools`: `_last_refresh` and
`_available_tools`, both `None` on a fresh instance.  Time is modelled in
integral seconds; `now - t` (truncated subtraction) agrees with the
Python `timedelta` comparison for a monotone clock. -/
structure AgentCache where
  lastRefresh : Option Nat
  availableTools : Option (List ToolDefinition)
deriving DecidableEq

/-- Python `not self._available_tools`: true for `None` and for an empty
list. -/
def pyNotTools : Option (List ToolDefinition) → Bool
  | none => true
  | some l => l.isEmpty

/-- The refresh condition of `get_tools` (lines 113-114). -/
def shouldRefresh (ttl : Nat) (c : AgentCache) (now : Nat) (force : Bool) : Bool :=
  force || pyNotTools c.availableTools ||
    (match c.lastRefresh with
     | some t => decide (now - t > ttl)
     | none => false)

/-- Python `self._available_tools or []`. -/
def pyOrEmpty : Option (List ToolDefinition) → List ToolDefinition
  | none => []
  | some l => l

/-- `get_tools` (lines 109-119).  `fetched` is the list `_fetch_tools`
would return if the discovery call were made now.  Returns the result
list, the updated cache, and whether the discovery call was made. -/
def get_tools (ttl : Nat) (c : AgentCache) (now : Nat) (force : Bool)
    (fetched : List ToolDefinition) : List ToolDefinition × AgentCache × Bool :=
  if shouldRefresh ttl c now force then
    let c2 : AgentCache := ⟨some now, some fetched⟩
    (pyOrEmpty c2.availableTools, c2, true)
  else (pyOrEmpty c.availableTools, c, false)

/-- The failure classes of a discovery call named by the specification:
transport failure (request error, other send exception, non-2xx status),
parse failure (decode-error dictionary or raised SSE `IndexError`), and a
parsed document in which `result.tools` is not reachable as a list. -/
def discoveryFailed (o : HttpOutcome) : Bool :=
  match o with
  | .requestError _ => true
  | .otherError _ => true
  | .success st body =>
    if is2xx st then
      match parseRespBody body with
      | .raised _ => true
      | .errDict _ => true
      | .parsed j =>
        match j with
        | .obj kvs =>
          match jlookup "result" kvs with
          | some (.obj rkvs) =>
            match jlookup "tools" rkvs with
            | some (.arr _) => false
            | some _ => true
            | none => true
          | some _ => true
          | none => true
        | _ => true
    else true

/-! ### The server's domain allow-listing
(`src/query_blogger_mcp_server/server.py`) -/

/-- Characters allowed in a URL scheme after the leading letter. -/
def schemeTailOk (l : List Char) : Bool :=
  l.all (fun c => c.isAlphanum || c = '+' || c = '-' || c = '.')

/-- Strip a leading `scheme:` as `urllib.parse.urlparse` does. -/
def dropScheme (l : List Char) : List Char :=
  match splitOnce [':'] l with
  | some (pre, post) =>
    match pre with
    | [] => l
    | c :: cs => if c.isAlpha && schemeTailOk cs then post else l
  | none => l

/-- `urlparse(url).netloc`: non-empty only when (after any scheme) the
string continues with `//`; then everything up to the next `/`, `?` or
`#`. -/
def netlocOf (url : String) : String :=
  let r := dropScheme url.data
  if leadsWith ['/', '/'] r then
    String.mk ((r.drop 2).takeWhile (fun c => c ≠ '/' && c ≠ '?' && c ≠ '#'))
  else ""

/-- `_is_allowed_domain` (lines 33-47).  `ALLOWED_DOMAINS` is a Python
set of strings, modelled as a list (only emptiness and membership are
used).  `urlparse` does not raise on a string argument, so the
`except` branch is dead and not modelled. -/
def is_allowed_domain (allowedDomains : List String) (blogUrl : String) : Bool :=
  if allowedDomains.isEmpty then false
  else allowedDomains.contains (netlocOf blogUrl)

def accessDeniedBlogs : String :=
  "Access denied: This tool can only query blogs from pre-approved domains."

def accessDeniedPosts : String :=
  "Access denied: This tool can only query posts from pre-approved domains."

/-- Python iteration over the value of `posts_data["items"]` (a dict
yields its keys, a string its characters); `.error` is a raised
`TypeError`. -/
def iterElems (j : Json) : Except String (List Json) :=
  match j with
  | .arr l => .ok l
  | .obj kvs => .ok (kvs.map (fun kv => Json.str kv.1))
  | .str s => .ok (s.data.map (fun c => Json.str (String.mk [c])))
  | j2 => .error (quo ++ pyTypeName j2 ++ quo ++ " object is not iterable")

/-- One transformed post of `get_recent_posts`/`search_posts`. -/
def postEntryFull (p : Json) : Except String Json := do
  let t ← pyGet p "title" .null
  let u ← pyGet p "url" .null
  let pub ← pyGet p "published" .null
  let c ← pyGet p "content" (.str "")
  pure (.obj [("title", t), ("url", u), ("published", pub), ("content", c)])

/-- One transformed post of `list_recent_posts` (no content). -/
def postEntryBrief (p : Json) : Except String Json := do
  let t ← pyGet p "title" .null
  let u ← pyGet p "url" .null
  let pub ← pyGet p "published" .null
  pure (.obj [("title", t), ("url", u), ("published", pub)])

/-- The `if not blog_data or "error" in blog_data or not blog_data.get("id")`
guard shared by the three post-querying tools (given `blog_data` is a
dictionary). -/
def blogGuardFails (bkvs : List (String × Json)) : Bool :=
  !jTruthy (.obj bkvs) || (jlookup "error" bkvs).isSome ||
    !jTruthy ((jlookup "id" bkvs).getD .null)

def blogNotFoundFor (blogUrl : String) : Json :=
  .obj [("error", .str ("Could not find blog for " ++ blogUrl ++
    ". It might not exist or there was an API issue.")), ("requested_url", .str blogUrl)]

/-- The `if posts_data and posts_data.get("items")` stage shared by the
three post-querying tools, parameterised by the per-tool entry transform,
result key and fallback message. -/
def postsStage (entry : Json → Except String Json) (postsKey : String) (noneMsg : String)
    (blogUrl : String) (bkvs : List (String × Json))
    (postsData : Option (List (String × Json))) : Except String Json :=
  match postsData with
  | some pkvs =>
    if jTruthy (.obj pkvs) && jTruthy ((jlookup "items" pkvs).getD .null) then
      if (jlookup "error" pkvs).isSome then
        .ok (.obj [("error", .str ("Failed to retrieve posts: " ++
          pyStr ((jlookup "error" pkvs).getD .null))), ("blog_url", .str blogUrl)])
      else do
        let es ← iterElems ((jlookup "items" pkvs).getD .null)
        let posts ← es.mapM entry
        pure (.obj [("blog_title", (jlookup "name" bkvs).getD .null),
          ("blog_url", .str blogUrl),
          ("total_posts_found", (jlookup "totalItems" pkvs).getD (.num posts.length)),
          (postsKey, .arr posts)])
    else .ok (.obj [("error", .str noneMsg), ("blog_url", .str blogUrl)])
  | none => .ok (.obj [("error", .str noneMsg), ("blog_url", .str blogUrl)])

/-- `get_blog_info_by_url` (lines 58-96).  `blogData` is the value the
`BloggerAPIClient.get_blog_by_url` call would return (`None` or a
dictionary, per its annotation).  The boolean records whether any
Blogger-API client call was made. -/
def get_blog_info_by_url (domains : List String) (blogUrl : String)
    (blogData : Option (List (String × Json))) : Except String Json × Bool :=
  if is_allowed_domain domains blogUrl = false then
    (.ok (.obj [("error", .str accessDeniedBlogs), ("requested_url", .str blogUrl)]), false)
  else
    (match blogData with
     | some bkvs =>
       if jTruthy (.obj bkvs) then
         if (jlookup "error" bkvs).isSome then
           .ok (.obj [("error", .str ("Failed to retrieve blog info: " ++
             pyStr ((jlookup "error" bkvs).getD .null))), ("requested_url", .str blogUrl)])
         else
           .ok (.obj [("blog_id", (jlookup "id" bkvs).getD .null),
             ("blog_title", (jlookup "name" bkvs).getD .null),
             ("blog_url", (jlookup "url" bkvs).getD .null),
             ("description", (jlookup "description" bkvs).getD (.str "No description available.")),
             ("published_date", (jlookup "published" bkvs).getD .null)])
       else
         .ok (.obj [("error", .str ("Could not find blog at " ++ blogUrl ++
           ". It might not exist or the URL is incorrect.")), ("requested_url", .str blogUrl)])
     | none =>
       .ok (.obj [("error", .str ("Could not find blog at " ++ blogUrl ++
         ". It might not exist or the URL is incorrect.")), ("requested_url", .str blogUrl)]),
     true)

/-- `get_recent_posts` (lines 106-154).  Oracles as in
`get_blog_info_by_url`; `postsData` is what
`BloggerAPIClient.get_recent_posts` would return. -/
def get_recent_posts (domains : List String) (blogUrl : String) (numPosts : Nat)
    (includeContent : Bool) (blogData : Option (List (String × Json)))
    (postsData : Option (List (String × Json))) : Except String Json × Bool :=
  if is_allowed_domain domains blogUrl = false then
    (.ok (.obj [("error", .str accessDeniedPosts), ("requested_url", .str blogUrl)]), false)
  else
    (match blogData with
     | none => .ok (blogNotFoundFor blogUrl)
     | some bkvs =>
       if blogGuardFails bkvs then .ok (blogNotFoundFor blogUrl)
       else
         postsStage postEntryFull "recent_posts"
           ("No recent posts found for " ++ blogUrl ++ " or an issue with the Blogger API.")
           blogUrl bkvs postsData,
     true)

/-- `list_recent_posts` (lines 165-212). -/
def list_recent_posts (domains : List String) (blogUrl : String) (numPosts : Nat)
    (blogData : Option (List (String × Json)))
    (postsData : Option (List (String × Json))) : Except String Json × Bool :=
  if is_allowed_domain domains blogUrl = false then
    (.ok (.obj [("error", .str accessDeniedPosts), ("requested_url", .str blogUrl)]), false)
  else
    (match blogData with
     | none => .ok (blogNotFoundFor blogUrl)
     | some bkvs =>
       if blogGuardFails bkvs then .ok (blogNotFoundFor blogUrl)
       else
         postsStage postEntryBrief "recent_posts"
           ("No recent posts found for " ++ blogUrl ++ " or an issue with the Blogger API.")
           blogUrl bkvs postsData,
     true)

/-- `search_posts` (lines 222-271). -/
def search_posts (domains : List String) (blogUrl : String) (queryTerms : String)
    (numPosts : Nat) (blogData : Option (List (String × Json)))
    (postsData : Option (List (String × Json))) : Except String Json × Bool :=
  if is_allowed_domain domains blogUrl = false then
    (.ok (.obj [("error", .str accessDeniedPosts), ("requested_url", .str blogUrl)]), false)
  else
    (match blogData with
     | none => .ok (blogNotFoundFor blogUrl)
     | some bkvs =>
       if blogGuardFails bkvs then .ok (blogNotFoundFor blogUrl)
       else
         postsStage postEntryFull "matching_posts"
           ("No posts found matching " ++ quo ++ queryTerms ++ quo ++ " for " ++ blogUrl ++
             " or an issue with the Blogger API.")
           blogUrl bkvs postsData,
     true)

/-! ### Specification-side helpers for the claims -/

deriving instance DecidableEq for Except

def Json.isObj : Json → Bool
  | .obj _ => true
  | _ => false

/-- The `name` of a discovery entry, per the specification wording. -/
def methodName (m : Json) : String :=
  match m with
  | .obj kvs => match jlookup "name" kvs with | some (.str s) => s | _ => ""
  | _ => ""

/-- The `description` of a discovery entry (default empty string). -/
def methodDesc (m : Json) : String :=
  match m with
  | .obj kvs => match (jlookup "description" kvs).getD (.str "") with | .str s => s | _ => ""
  | _ => ""

/-- The `parameters` of a discovery entry (default empty mapping). -/
def methodParams (m : Json) : List (String × Json) :=
  match m with
  | .obj kvs => match (jlookup "parameters" kvs).getD (.obj []) with | .obj p => p | _ => []
  | _ => []

/-- A discovery entry on which the comprehension and the pydantic
validation succeed: a mapping with a string `name`, a string
`description` if present, and a mapping `parameters` if present. -/
def validMethod (m : Json) : Bool :=
  match m with
  | .obj kvs =>
    (match jlookup "name" kvs with | some (.str _) => true | _ => false) &&
    (match (jlookup "description" kvs).getD (.str "") with | .str _ => true | _ => false) &&
    (match (jlookup "parameters" kvs).getD (.obj []) with | .obj _ => true | _ => false)
  | _ => false

/-- The data segment of an SSE body as the specification words it for the
amended claim C4: everything after the first occurrence of the substring
`data:`, located by index. -/
def sseTailSpec (body : String) : Option (List Char) :=
  (findSub "data:".data body.data).map (fun i => body.data.drop (i + 5))

/-- The SSE branch of the body decoder, stated from `sseTailSpec`. -/
def sseSpecOutcome (body : String) : ParseOutcome :=
  match sseTailSpec body with
  | none => .raised "list index out of range"
  | some t =>
    let dataLine := String.mk (pyStrip t)
    match jsonLoads dataLine with
    | .ok j => .parsed j
    | .error e =>
      .errDict ("JSON decoding error of SSE data payload: " ++ e ++ ". Raw data: " ++
        quo ++ dataLine ++ quo)

/-- The non-SSE branch of the body decoder. -/
def directSpecOutcome (body : String) : ParseOutcome :=
  match jsonLoads body with
  | .ok j => .parsed j
  | .error e =>
    .errDict ("JSON decoding error of direct response: " ++ e ++ ". Raw response: " ++
      quo ++ body ++ quo)

theorem splitOnce_eq_findSub (sep : List Char) : ∀ l, splitOnce sep l =
    (findSub sep l).map (fun i => (l.take i, l.drop (i + sep.length)))
  | [] => by
    by_cases h : leadsWith sep [] = true <;> simp [splitOnce, findSub, h]
  | c :: cs => by
    by_cases h : leadsWith sep (c :: cs) = true
    · simp [splitOnce, findSub, h]
    · have ih := splitOnce_eq_findSub sep cs
      simp only [splitOnce, findSub, h, if_false, Bool.false_eq_true, ih]
      cases hf : findSub sep cs with
      | none => simp
      | some i =>
        have harith : i + 1 + sep.length = (i + sep.length) + 1 := by omega
        simp [List.take_succ_cons, harith, List.drop_succ_cons]

/-! ### The claims -/

theorem except_bind_ok {ε α β : Type} (a : α) (f : α → Except ε β) :
    (Except.ok a : Except ε α) >>= f = f a := rfl

theorem except_map_ok {ε α β : Type} (g : α → β) (a : α) :
    (g <$> (Except.ok a : Except ε α)) = Except.ok (g a) := rfl

theorem except_pure {ε α : Type} (a : α) : (pure a : Except ε α) = Except.ok a := rfl

theorem except_throw {ε α : Type} (e : ε) : (throw e : Except ε α) = Except.error e := rfl

/-- Claim C1: for every JSON-serializable value `X`, the result unwrapper
applied to a parsed envelope whose `result` is a mapping whose `content`
is a non-empty sequence whose first element is a mapping with
`type == "text"` and a `text` key equal to the JSON encoding of `X`
returns the success payload `X`. -/
theorem unwrap_nested_roundtrip (kvs rkvs ckvs : List (String × Json)) (rest : List Json)
    (X : Json)
    (hres : jlookup "result" kvs = some (.obj rkvs))
    (hcont : jlookup "content" rkvs = some (.arr (.obj ckvs :: rest)))
    (hty : jlookup "type" ckvs = some (.str "text"))
    (htx : jlookup "text" ckvs = some (.str (jsonDumps X))) :
    unwrapEnvelope (.obj kvs) = .ok X := by
  unfold unwrapEnvelope
  simp [pyIn, pyIndex, hres, hcont, hty, htx, jsonLoads_dumps X,
    except_bind_ok, except_map_ok, except_pure]

/-- Witness for C1 at `X = {"answer": 42, "ok": true}`. -/
theorem unwrap_nested_roundtrip_witness :
    unwrapEnvelope (.obj [("jsonrpc", .str "2.0"),
        ("result", .obj [("content", .arr [.obj [("type", .str "text"),
          ("text", .str (jsonDumps (.obj [("answer", .num 42), ("ok", .bool true)])))]])])]) =
      .ok (.obj [("answer", .num 42), ("ok", .bool true)]) :=
  unwrap_nested_roundtrip
    [("jsonrpc", .str "2.0"),
     ("result", .obj [("content", .arr [.obj [("type", .str "text"),
       ("text", .str (jsonDumps (.obj [("answer", .num 42), ("ok", .bool true)])))]])])]
    [("content", .arr [.obj [("type", .str "text"),
       ("text", .str (jsonDumps (.obj [("answer", .num 42), ("ok", .bool true)])))]])]
    [("type", .str "text"),
     ("text", .str (jsonDumps (.obj [("answer", .num 42), ("ok", .bool true)])))]
    [] (.obj [("answer", .num 42), ("ok", .bool true)])
    (by decide) (by decide) (by decide) (by decide)

/-- Counterexample to claim C2 as stated: on a fresh instance whose first
discovery call returns an empty list, two immediate calls with no forced
refresh both perform the network call (the cached empty list is falsy,
so the second call refreshes again) — not exactly one. -/
theorem get_tools_double_fetch_cex :
    (get_tools 300 ⟨none, none⟩ 0 false []).2.2 = true ∧
      (get_tools 300 (get_tools 300 ⟨none, none⟩ 0 false []).2.1 0 false []).2.2 = true := by
  decide

/-- Claim C2 as amended: two successive `get_tools` calls on a fresh
instance with no forced refresh, the second within the TTL window,
perform exactly one discovery call provided the first discovery call
returns a non-empty tool list (an empty cached list counts as absent and
triggers another refresh). -/
theorem get_tools_single_fetch_of_nonempty (ttl t1 t2 : Nat) (r1 r2 : List ToolDefinition)
    (h1 : r1 ≠ []) (h2 : t2 - t1 ≤ ttl) :
    (get_tools ttl ⟨none, none⟩ t1 false r1).2.2 = true ∧
      (get_tools ttl (get_tools ttl ⟨none, none⟩ t1 false r1).2.1 t2 false r2).2.2 = false := by
  have hfirst : get_tools ttl ⟨none, none⟩ t1 false r1 = (r1, ⟨some t1, some r1⟩, true) := by
    simp [get_tools, shouldRefresh, pyNotTools, pyOrEmpty]
  have hemp : r1.isEmpty = false := by
    cases r1 with
    | nil => exact absurd rfl h1
    | cons a l => rfl
  have hsr : shouldRefresh ttl ⟨some t1, some r1⟩ t2 false = false := by
    simp [shouldRefresh, pyNotTools, hemp]
    omega
  refine ⟨by rw [hfirst], ?_⟩
  rw [hfirst]
  simp [get_tools, hsr]

/-- Witness for the amended claim C2. -/
theorem get_tools_single_fetch_of_nonempty_witness :
    (get_tools 300 ⟨none, none⟩ 5 false [⟨"tool", "", [], "tool"⟩]).2.2 = true ∧
      (get_tools 300 (get_tools 300 ⟨none, none⟩ 5 false [⟨"tool", "", [], "tool"⟩]).2.1
        6 false []).2.2 = false :=
  get_tools_single_fetch_of_nonempty 300 5 6 [⟨"tool", "", [], "tool"⟩] []
    (by decide) (by decide)

/-- Counterexample to claim C3 as stated: on the envelope
`{"jsonrpc": "2.0", "id": "1", "error": {"message": "boom"}}` the
unwrapper's failure message is the prefixed string
`MCP server JSON-RPC error: boom`, not the error object's message
`boom` itself. -/
theorem unwrap_error_message_cex :
    unwrapEnvelope (.obj [("jsonrpc", .str "2.0"), ("id", .str "1"),
        ("error", .obj [("message", .str "boom")])]) =
      .ok (errObj ("MCP server JSON-RPC error: boom")) ∧
      ("MCP server JSON-RPC error: boom" : String) ≠ "boom" := by
  constructor
  · decide
  · decide

/-- Claim C3 as amended: for every parsed envelope (a mapping) in which
`error` is present, `result` is absent, and the error value is a
mapping, the unwrapper returns a failure whose message is the literal
prefix `MCP server JSON-RPC error: ` followed by the `str()` of the
error object's `message` field when present and by `Unknown error`
otherwise.  (When `result` is also present the result branch is taken
instead, and a non-mapping error value raises `AttributeError` into the
generic handler.) -/
theorem unwrap_error_prefixed_message (kvs ekvs : List (String × Json))
    (hres : jlookup "result" kvs = none)
    (herr : jlookup "error" kvs = some (.obj ekvs)) :
    unwrapEnvelope (.obj kvs) =
      .ok (errObj ("MCP server JSON-RPC error: " ++
        pyStr ((jlookup "message" ekvs).getD (.str "Unknown error")))) := by
  unfold unwrapEnvelope
  simp [pyIn, pyIndex, pyGet, hres, herr, except_bind_ok, except_map_ok, except_pure]

/-- Witness for the amended claim C3. -/
theorem unwrap_error_prefixed_message_witness :
    unwrapEnvelope (.obj [("error", .obj [("message", .str "boom")])]) =
      .ok (errObj ("MCP server JSON-RPC error: " ++
        pyStr ((jlookup "message" [("message", Json.str "boom")]).getD (.str "Unknown error")))) :=
  unwrap_error_prefixed_message [("error", .obj [("message", .str "boom")])]
    [("message", .str "boom")] (by decide) (by decide)

/-- Counterexample to claim C4 as stated: on the SSE body
`event: message\ndata: 1\ndata: 2` the code does not honor only the
first `data:` line — it takes everything after the first occurrence of
the substring `data:` through the end of the body, so the JSON document
is `1\ndata: 2`, which fails to decode, instead of the first line's
payload `1`. -/
theorem sse_first_data_line_cex :
    parseRespBody "event: message\ndata: 1\ndata: 2" =
      .errDict ("JSON decoding error of SSE data payload: Extra data. Raw data: " ++
        quo ++ "1\ndata: 2" ++ quo) ∧
      parseRespBody "event: message\ndata: 1\ndata: 2" ≠ .parsed (.num 1) := by
  constructor
  · decide
  · decide

/-- Claim C4 as amended: for every body beginning with `event: message`,
the parser takes everything after the first occurrence of the substring
`data:` (not merely the rest of that line) through the end of the body,
strips surrounding whitespace, and treats that as the JSON document,
raising `IndexError` when `data:` does not occur; any other body is
parsed as JSON directly. -/
theorem parse_body_spec (body : String) :
    parseRespBody body =
      if leadsWith sseMarker.data body.data then sseSpecOutcome body
      else directSpecOutcome body := by
  unfold parseRespBody sseSpecOutcome directSpecOutcome sseTailSpec
  by_cases h : leadsWith sseMarker.data body.data = true
  · simp only [h, if_true]
    rw [splitOnce_eq_findSub]
    cases hf : findSub "data:".data body.data with
    | none => simp
    | some i => simp [show ("data:".data).length = 5 from rfl]
  · simp only [h]
    simp

theorem discoveryFailed_fetch_nil (o : HttpOutcome) (h : discoveryFailed o = true) :
    fetch_tools o = [] := by
  cases o with
  | requestError m => rfl
  | otherError m => rfl
  | success st body =>
    unfold discoveryFailed at h
    unfold fetch_tools parse_response
    by_cases h2 : is2xx st = true
    · simp only [h2, if_true] at h ⊢
      cases hp : parseRespBody body with
      | raised m => simp [hp]
      | errDict m => simp [hp, errObj, jlookup]
      | parsed j =>
        simp only [hp] at h
        cases j with
        | obj kvs =>
          cases hr : jlookup "result" kvs with
          | none => simp [hp, hr, List.mapM.loop]
          | some v =>
            simp only [hr] at h
            cases v with
            | obj rkvs =>
              cases ht : jlookup "tools" rkvs with
              | none => simp [hp, hr, ht, List.mapM.loop]
              | some t =>
                simp only [ht] at h
                cases t with
                | arr ms => simp at h
                | null => simp [hp, hr, ht]
                | bool b => simp [hp, hr, ht]
                | num n => simp [hp, hr, ht]
                | str s => simp [hp, hr, ht]
                | obj o2 => simp [hp, hr, ht]
            | null => simp [hp, hr]
            | bool b => simp [hp, hr]
            | num n => simp [hp, hr]
            | str s => simp [hp, hr]
            | arr l => simp [hp, hr]
        | null => simp [hp]
        | bool b => simp [hp]
        | num n => simp [hp]
        | str s => simp [hp]
        | arr l => simp [hp]
    · simp only [Bool.not_eq_true] at h2
      simp [h2]

/-- Claim C5: whenever a triggered refresh of the tool registry fails
(transport error, parse error, or a discovery response without a
`result.tools` list), `get_tools` does not raise (it is a total
function), returns the empty list, and unconditionally overwrites any
previously cached tools — including a non-empty cache — with the empty
result. -/
theorem failed_refresh_overwrites_cache (ttl now : Nat) (c : AgentCache) (force : Bool)
    (o : HttpOutcome) (htrig : shouldRefresh ttl c now force = true)
    (hfail : discoveryFailed o = true) :
    get_tools ttl c now force (fetch_tools o) = ([], ⟨some now, some []⟩, true) := by
  rw [discoveryFailed_fetch_nil o hfail]
  simp [get_tools, htrig, pyOrEmpty]

/-- Witness for C5: a stale non-empty cache is overwritten by a failed
(connection-refused) refresh. -/
theorem failed_refresh_overwrites_cache_witness :
    get_tools 300 ⟨some 0, some [⟨"tool", "", [], "tool"⟩]⟩ 1000 false
        (fetch_tools (.requestError "connection refused")) =
      ([], ⟨some 1000, some []⟩, true) :=
  failed_refresh_overwrites_cache 300 1000 ⟨some 0, some [⟨"tool", "", [], "tool"⟩]⟩ false
    (.requestError "connection refused") (by decide) (by decide)

theorem toolOfMethod_valid (m : Json) (h : validMethod m = true) :
    toolOfMethod m = some ⟨methodName m, methodDesc m, methodParams m, methodName m⟩ := by
  cases m with
  | obj kvs =>
    simp only [validMethod, Bool.and_eq_true] at h
    unfold toolOfMethod methodName methodDesc methodParams
    obtain ⟨⟨h1, h2⟩, h3⟩ := h
    cases hn : jlookup "name" kvs with
    | none => simp [hn] at h1
    | some nv =>
      simp only [hn] at h1 ⊢
      cases nv <;> simp at h1 ⊢
      cases hd : (jlookup "description" kvs).getD (.str "") with
      | str d =>
        simp only [hd]
        cases hpp : (jlookup "parameters" kvs).getD (.obj []) with
        | obj p => simp
        | null => simp [hpp] at h3
        | bool b => simp [hpp] at h3
        | num n => simp [hpp] at h3
        | str s => simp [hpp] at h3
        | arr l => simp [hpp] at h3
      | null => simp [hd] at h2
      | bool b => simp [hd] at h2
      | num n => simp [hd] at h2
      | arr l => simp [hd] at h2
      | obj o2 => simp [hd] at h2
  | null => simp [validMethod] at h
  | bool b => simp [validMethod] at h
  | num n => simp [validMethod] at h
  | str s => simp [validMethod] at h
  | arr l => simp [validMethod] at h

theorem mapM_loop_toolOfMethod (ms : List Json) (hv : ∀ m ∈ ms, validMethod m = true) :
    ∀ acc : List ToolDefinition,
      List.mapM.loop toolOfMethod ms acc =
        some (acc.reverse ++
          ms.map (fun m => ⟨methodName m, methodDesc m, methodParams m, methodName m⟩)) := by
  induction ms with
  | nil => intro acc; simp [List.mapM.loop]
  | cons m ms ih =>
    intro acc
    simp only [List.mapM.loop]
    rw [toolOfMethod_valid m (hv m (by simp))]
    simp [ih (fun x hx => hv x (by simp [hx])), List.reverse_cons, List.append_assoc]

/-- Claim C6: for every valid discovery response, `get_tools` returns one
`ToolDefinition` per entry of `result.tools`, in order, with
`name`→name, `description`→description (default empty string),
`parameters`→parameters (default empty mapping), and method equal to
name. -/
theorem fetch_tools_valid_mapping (ttl now st : Nat) (c : AgentCache) (body : String)
    (kvs rkvs : List (String × Json)) (ms : List Json)
    (h2 : is2xx st = true)
    (hp : parseRespBody body = .parsed (.obj kvs))
    (hres : jlookup "result" kvs = some (.obj rkvs))
    (htools : jlookup "tools" rkvs = some (.arr ms))
    (hv : ∀ m ∈ ms, validMethod m = true) :
    fetch_tools (.success st body) =
      ms.map (fun m => ⟨methodName m, methodDesc m, methodParams m, methodName m⟩) ∧
    (get_tools ttl c now true (fetch_tools (.success st body))).1 =
      ms.map (fun m => ⟨methodName m, methodDesc m, methodParams m, methodName m⟩) := by
  have hf : fetch_tools (.success st body) =
      ms.map (fun m => ⟨methodName m, methodDesc m, methodParams m, methodName m⟩) := by
    unfold fetch_tools parse_response
    simp [h2, hp, hres, htools, mapM_loop_toolOfMethod ms hv]
  refine ⟨hf, ?_⟩
  rw [hf]
  simp [get_tools, shouldRefresh, pyOrEmpty]

/-- Witness for C6 on a concrete two-tool discovery response. -/
theorem fetch_tools_valid_mapping_witness :
    fetch_tools (.success 200
        "\x7b\"jsonrpc\":\"2.0\",\"id\":1,\"result\":\x7b\"tools\":[\x7b\"name\":\"t1\"\x7d,\x7b\"name\":\"t2\",\"description\":\"d\"\x7d]\x7d\x7d") =
      [Json.obj [("name", Json.str "t1")],
        Json.obj [("name", Json.str "t2"), ("description", Json.str "d")]].map
        (fun m => ⟨methodName m, methodDesc m, methodParams m, methodName m⟩) ∧
    (get_tools 300 ⟨none, none⟩ 0 true (fetch_tools (.success 200
        "\x7b\"jsonrpc\":\"2.0\",\"id\":1,\"result\":\x7b\"tools\":[\x7b\"name\":\"t1\"\x7d,\x7b\"name\":\"t2\",\"description\":\"d\"\x7d]\x7d\x7d"))).1 =
      [Json.obj [("name", Json.str "t1")],
        Json.obj [("name", Json.str "t2"), ("description", Json.str "d")]].map
        (fun m => ⟨methodName m, methodDesc m, methodParams m, methodName m⟩) :=
  fetch_tools_valid_mapping 300 0 200 ⟨none, none⟩
    "\x7b\"jsonrpc\":\"2.0\",\"id\":1,\"result\":\x7b\"tools\":[\x7b\"name\":\"t1\"\x7d,\x7b\"name\":\"t2\",\"description\":\"d\"\x7d]\x7d\x7d"
    [("jsonrpc", .str "2.0"), ("id", .num 1),
      ("result", .obj [("tools", .arr [.obj [("name", .str "t1")],
        .obj [("name", .str "t2"), ("description", .str "d")]])])]
    [("tools", .arr [.obj [("name", .str "t1")],
      .obj [("name", .str "t2"), ("description", .str "d")]])]
    [.obj [("name", .str "t1")], .obj [("name", .str "t2"), ("description", .str "d")]]
    (by decide) (by decide) (by decide) (by decide) (by decide)

/-- Counterexample to claim C7 as stated: `call_mcp_tool` does not always
return a result mapping — on a 2xx response whose `result` is the bare
integer `7`, it returns the non-mapping value `7`. -/
theorem call_tool_nonmapping_cex :
    call_mcp_tool (.success 200 "\x7b\"result\":7\x7d") = .num 7 ∧
      (Json.num 7).isObj = false := by
  constructor
  · decide
  · decide

/-- Claim C7 as amended: `call_mcp_tool` never propagates an exception (it
is a total function of the transport outcome) and always returns a JSON
value, though the success payload need not be a mapping; every non-2xx
HTTP status yields a failure mapping whose message embeds the status
code and the response body, every transport-level connection failure
yields a failure mapping whose message embeds the underlying network
error, and every other exception yields a failure mapping whose message
embeds its description. -/
theorem call_tool_failure_messages (o : HttpOutcome) :
    (∀ st body, o = .success st body → is2xx st = false →
      call_mcp_tool o = errObj ("Tool call failed: HTTP " ++ natStr st ++ " - " ++ body)) ∧
    (∀ m, o = .requestError m →
      call_mcp_tool o = errObj ("Tool call failed: Network error - " ++ m)) ∧
    (∀ m, o = .otherError m →
      call_mcp_tool o = errObj ("Tool call failed: Unexpected error - " ++ m)) := by
  refine ⟨?_, ?_, ?_⟩
  · intro st body ho hst
    subst ho
    simp [call_mcp_tool, callToolTry, hst]
  · intro m ho
    subst ho
    rfl
  · intro m ho
    subst ho
    rfl

/-- Witness for the amended claim C7 (the HTTP case reproduces the
specification's simulated 404). -/
theorem call_tool_failure_messages_witness :
    call_mcp_tool (.success 404 "Not Found") =
      errObj ("Tool call failed: HTTP " ++ natStr 404 ++ " - " ++ "Not Found") ∧
    call_mcp_tool (.requestError "dns failure") =
      errObj ("Tool call failed: Network error - " ++ "dns failure") ∧
    call_mcp_tool (.otherError "oops") =
      errObj ("Tool call failed: Unexpected error - " ++ "oops") :=
  ⟨(call_tool_failure_messages (.success 404 "Not Found")).1 404 "Not Found" rfl (by decide),
   (call_tool_failure_messages (.requestError "dns failure")).2.1 "dns failure" rfl,
   (call_tool_failure_messages (.otherError "oops")).2.2 "oops" rfl⟩

/-- Claim C8: every JSON decode failure — of the SSE data segment, of a
direct body, or of the nested content text — produces a failure whose
message embeds the offending raw fragment (the stripped data segment,
the raw body, or the raw nested text, respectively). -/
theorem parse_failures_embed_fragment :
    (∀ (body : String) (pre post : List Char) (e : String),
      leadsWith sseMarker.data body.data = true →
      splitOnce "data:".data body.data = some (pre, post) →
      jsonLoads (String.mk (pyStrip post)) = .error e →
      ∃ m p q, parseRespBody body = .errDict m ∧ m = p ++ String.mk (pyStrip post) ++ q) ∧
    (∀ (body : String) (e : String),
      leadsWith sseMarker.data body.data = false →
      jsonLoads body = .error e →
      ∃ m p q, parseRespBody body = .errDict m ∧ m = p ++ body ++ q) ∧
    (∀ (kvs rkvs ckvs : List (String × Json)) (rest : List Json) (s e : String),
      jlookup "result" kvs = some (.obj rkvs) →
      jlookup "content" rkvs = some (.arr (.obj ckvs :: rest)) →
      jlookup "type" ckvs = some (.str "text") →
      jlookup "text" ckvs = some (.str s) →
      jsonLoads s = .error e →
      ∃ m p q, unwrapEnvelope (.obj kvs) = .ok (errObj m) ∧ m = p ++ s ++ q) := by
  refine ⟨?_, ?_, ?_⟩
  · intro body pre post e hl hsp hjson
    refine ⟨"JSON decoding error of SSE data payload: " ++ e ++ ". Raw data: " ++ quo ++
      String.mk (pyStrip post) ++ quo,
      "JSON decoding error of SSE data payload: " ++ e ++ ". Raw data: " ++ quo, quo, ?_, ?_⟩
    · unfold parseRespBody
      simp [hl, hsp, hjson]
    · simp [String.append_assoc]
  · intro body e hl hjson
    refine ⟨"JSON decoding error of direct response: " ++ e ++ ". Raw response: " ++ quo ++
      body ++ quo,
      "JSON decoding error of direct response: " ++ e ++ ". Raw response: " ++ quo, quo, ?_, ?_⟩
    · unfold parseRespBody
      simp [hl, hjson]
    · simp [String.append_assoc]
  · intro kvs rkvs ckvs rest s e hres hcont hty htx hjson
    refine ⟨"JSON decoding error of nested content: " ++ e ++ ". Raw nested text: " ++ quo ++
      s ++ quo,
      "JSON decoding error of nested content: " ++ e ++ ". Raw nested text: " ++ quo, quo, ?_, ?_⟩
    · unfold unwrapEnvelope
      simp [pyIn, pyIndex, hres, hcont, hty, htx, hjson,
        except_bind_ok, except_map_ok, except_pure]
    · simp [String.append_assoc]

/-- Witness for C8: a truncated SSE data segment, a truncated direct
body, and a truncated nested text each surface their fragment. -/
theorem parse_failures_embed_fragment_witness :
    (∃ m p q, parseRespBody "event: message\ndata: \x7b\"a\": " = .errDict m ∧
      m = p ++ String.mk (pyStrip " \x7b\"a\": ".data) ++ q) ∧
    (∃ m p q, parseRespBody "\x7b\"a\": " = .errDict m ∧
      m = p ++ "\x7b\"a\": " ++ q) ∧
    (∃ m p q, unwrapEnvelope (.obj [("result", .obj [("content", .arr [.obj
        [("type", .str "text"), ("text", .str "\x7bbad")]])])]) = .ok (errObj m) ∧
      m = p ++ "\x7bbad" ++ q) :=
  ⟨parse_failures_embed_fragment.1 "event: message\ndata: \x7b\"a\": "
      "event: message\n".data " \x7b\"a\": ".data "Expecting value"
      (by decide) (by decide) (by decide),
   parse_failures_embed_fragment.2.1 "\x7b\"a\": " "Expecting value"
      (by decide) (by decide),
   parse_failures_embed_fragment.2.2
      [("result", .obj [("content", .arr [.obj [("type", .str "text"), ("text", .str "\x7bbad")]])])]
      [("content", .arr [.obj [("type", .str "text"), ("text", .str "\x7bbad")]])]
      [("type", .str "text"), ("text", .str "\x7bbad")] [] "\x7bbad"
      "Expecting property name enclosed in double quotes"
      (by decide) (by decide) (by decide) (by decide) (by decide)⟩

/-- Claim C9: for every parsed envelope (a mapping) that contains neither
a `result` nor an `error` key, `call_mcp_tool` returns a failure whose
message is exactly the protocol-violation string. -/
theorem missing_result_error_message (st : Nat) (body : String) (kvs : List (String × Json))
    (h2 : is2xx st = true)
    (hp : parseRespBody body = .parsed (.obj kvs))
    (hres : jlookup "result" kvs = none)
    (herr : jlookup "error" kvs = none) :
    call_mcp_tool (.success st body) = errObj missingKeyMsg := by
  unfold call_mcp_tool callToolTry
  simp only [h2, if_true, hp]
  have hu : unwrapEnvelope (.obj kvs) = .ok (errObj missingKeyMsg) := by
    unfold unwrapEnvelope
    simp [pyIn, hres, herr, except_bind_ok, except_pure]
  simp [hu]

/-- Witness for C9 on the specification's test body. -/
theorem missing_result_error_message_witness :
    call_mcp_tool (.success 200 "\x7b\"jsonrpc\":\"2.0\",\"id\":\"1\"\x7d") =
      errObj missingKeyMsg :=
  missing_result_error_message 200 "\x7b\"jsonrpc\":\"2.0\",\"id\":\"1\"\x7d"
    [("jsonrpc", .str "2.0"), ("id", .str "1")]
    (by decide) (by decide) (by decide) (by decide)

/-- Claim C10: when the configured `ALLOWED_DOMAINS` set is empty, the
domain check rejects every URL, and each of the four server tools
returns the access-denied error for every input without querying the
Blogger API — deny by default. -/
theorem empty_domains_denies_all (url q : String) (n : Nat) (ic : Bool)
    (bd pd : Option (List (String × Json))) :
    is_allowed_domain [] url = false ∧
    get_blog_info_by_url [] url bd =
      (.ok (.obj [("error", .str accessDeniedBlogs), ("requested_url", .str url)]), false) ∧
    get_recent_posts [] url n ic bd pd =
      (.ok (.obj [("error", .str accessDeniedPosts), ("requested_url", .str url)]), false) ∧
    list_recent_posts [] url n bd pd =
      (.ok (.obj [("error", .str accessDeniedPosts), ("requested_url", .str url)]), false) ∧
    search_posts [] url q n bd pd =
      (.ok (.obj [("error", .str accessDeniedPosts), ("requested_url", .str url)]), false) := by
  have h : is_allowed_domain [] url = false := by simp [is_allowed_domain]
  refine ⟨h, ?_, ?_, ?_, ?_⟩ <;>
    simp [get_blog_info_by_url, get_recent_posts, list_recent_posts, search_posts, h]
